import Mathlib

/-!
Verification of the labeler triage tool (filtering/navigation engine).

Shallow embedding conventions:
* Rust `String`/`&str` values are modelled as `List Char` (`RStr`): the Rust
  code indexes strings by byte, which for the ASCII data this tool processes
  coincides with the character sequence.
* Character classes (`is_alphanumeric`, `is_numeric`, `to_lowercase`) are
  Unicode in Rust; the embedding models their ASCII behaviour
  (`Char.isAlphanum`, `Char.isDigit`, an ASCII case map).  `is_ascii_hexdigit`
  is ASCII-exact in Rust and modelled exactly.
* `HashMap`s are modelled as association lists (when iterated) or as lookup
  functions `key → Option value` (when only indexed/updated); `Vec` push/pop
  become `++ [x]` / `dropLast`.
* Rust `&mut self` methods become functions `State → result × State`.
* `f32` scores are modelled as `Float`; the `f32` literal parser used by the
  score filter is kept abstract (theorems quantify over it), since no verified
  property depends on floating-point semantics.
* The `regex` crate is kept abstract as a compile function
  `RStr → Except RStr (RStr → Bool)` (compilation either fails with a syntax
  error or yields a matcher); theorems quantify over it.
* File loading / JSON parsing is outside the embedding: constructors take the
  already-parsed records (`SavedClusters`, label data).
-/

namespace Labeler

/-- Rust strings, modelled as their character sequences. -/
abbrev RStr := List Char

/-! ## Tokenizer (`src/parser.rs`) -/

/-- `OPTION_URL_DECODE` (parser.rs:3), disabled. -/
def OPTION_URL_DECODE : Bool := false

/-- `OPTION_EXCLUDE_NUMERIC` (parser.rs:4). -/
def OPTION_EXCLUDE_NUMERIC : Bool := true

/-- `OPTION_REMOVE_DUPLICATES` (parser.rs:5), disabled. -/
def OPTION_REMOVE_DUPLICATES : Bool := false

/-- `OPTION_TO_LOWERCASE` (parser.rs:7). -/
def OPTION_TO_LOWERCASE : Bool := true

/-- `OPTION_TOKEN_MIN_LENGTH` (parser.rs:8). -/
def OPTION_TOKEN_MIN_LENGTH : Nat := 3

/-- `OPTION_REMOVE_HEXCODE` (parser.rs:9). -/
def OPTION_REMOVE_HEXCODE : Bool := true

/-- `OPTION_HEXCODE_MIN_LENGTH` (parser.rs:10). -/
def OPTION_HEXCODE_MIN_LENGTH : Nat := 20

/-- `OPTION_REMOVE_DOT_DIGIT` (parser.rs:11). -/
def OPTION_REMOVE_DOT_DIGIT : Bool := true

/-- `TOKEN_CHARS` (parser.rs:14): in-token punctuation. -/
def TOKEN_CHARS : List Char := ['.', '_', '-', '@']

/-- The character test of the scanning loops (parser.rs:37, 51):
`c.is_alphanumeric() || TOKEN_CHARS.contains(&c)` (ASCII model). -/
def is_token_char (c : Char) : Bool := c.isAlphanum || TOKEN_CHARS.contains c

/-- ASCII model of `str::to_lowercase` applied characterwise
(parser.rs:89): uppercase ASCII letters map to lowercase, all other
characters are unchanged. -/
def to_lowercase (c : Char) : Char :=
  if 'A' ≤ c ∧ c ≤ 'Z' then Char.ofNat (c.toNat + 32) else c

/-- `check_numeric` (parser.rs:118-129): true iff every character is numeric
(ASCII model: a digit); true on the empty string. -/
def check_numeric : RStr → Bool
  | [] => true
  | c :: rest => if c.isDigit then check_numeric rest else false

/-- Rust `char::is_ascii_hexdigit` (exact). -/
def is_ascii_hexdigit (c : Char) : Bool :=
  c.isDigit || ('a' ≤ c && c ≤ 'f') || ('A' ≤ c && c ≤ 'F')

/-- `check_hexdigit` (parser.rs:131-142). -/
def check_hexdigit : RStr → Bool
  | [] => true
  | c :: rest => if is_ascii_hexdigit c then check_hexdigit rest else false

/-- `check_dotdigit` (parser.rs:144-155). -/
def check_dotdigit : RStr → Bool
  | [] => true
  | c :: rest => if c.isDigit || c == '.' then check_dotdigit rest else false

/-- The index-pair scanning loops of `extract_tokens` (parser.rs:30-74),
modelled on character runs instead of byte spans.  `mode = none` is the
seeking loop (parser.rs:35-45); `mode = some acc` is the consuming loop
(parser.rs:48-58) with `acc` the run read so far, reversed.  A run ended by a
separator is always emitted (`begin < end` holds, the separator index
exceeds `begin`); a run ended by end-of-input is emitted via
`pairs.push((begin, end + 1))` unless it has length 1, in which case the
reset `end = 0` makes `begin < end` fail (parser.rs:61-66) and the run is
discarded. -/
def token_runs : Option RStr → RStr → List RStr
  | none, [] => []
  | some acc, [] => if acc.length = 1 then [] else [acc.reverse]
  | none, c :: rest =>
      if is_token_char c then token_runs (some [c]) rest else token_runs none rest
  | some acc, c :: rest =>
      if is_token_char c then token_runs (some (c :: acc)) rest
      else acc.reverse :: token_runs none rest

/-- The filter/normalisation chain applied to each scanned slice
(parser.rs:77-113).  Slices consist of token characters only, so the `trim()`
is a no-op; `OPTION_URL_DECODE` and `OPTION_REMOVE_DUPLICATES` are disabled.
The numeric/hex/dot checks run on the raw slice `s`, the length check on the
lowercased token; `(*y - *x)` is the slice length. -/
def process_token (s : RStr) : Option RStr :=
  if OPTION_EXCLUDE_NUMERIC && check_numeric s then none
  else
    let token := if OPTION_TO_LOWERCASE then s.map to_lowercase else s
    if token.length < OPTION_TOKEN_MIN_LENGTH then none
    else if OPTION_REMOVE_HEXCODE && check_hexdigit s
            && decide (OPTION_HEXCODE_MIN_LENGTH ≤ s.length) then none
    else if OPTION_REMOVE_DOT_DIGIT && check_dotdigit s then none
    else some token

/-- `extract_tokens` (parser.rs:24-116): scan the runs, then filter and
normalise each one in order. -/
def extract_tokens (s : RStr) : List RStr :=
  (token_runs none s).filterMap process_token

/-! ### Character-level facts -/

theorem uint32_le_iff_toNat {a b : UInt32} : a ≤ b ↔ a.toNat ≤ b.toNat := by
  rw [UInt32.le_def]; rfl

theorem char_le_iff_toNat {a b : Char} : a ≤ b ↔ a.toNat ≤ b.toNat := by
  rw [Char.le_def, uint32_le_iff_toNat]; rfl

theorem char_toNat_inj {a b : Char} (h : a.toNat = b.toNat) : a = b := by
  apply Char.ext
  have : a.val.toNat = b.val.toNat := h
  exact UInt32.toNat.inj this

theorem toNat_ofNat_valid {n : Nat} (h1 : 97 ≤ n) (h2 : n ≤ 122) :
    (Char.ofNat n).toNat = n := by
  unfold Char.ofNat
  rw [dif_pos]
  · rfl
  · left; omega

theorem isDigit_char (c : Char) :
    c.isDigit = decide (48 ≤ c.toNat ∧ c.toNat ≤ 57) := by
  have h1 : ((48 : UInt32) ≤ c.val) ↔ 48 ≤ c.toNat := by
    rw [uint32_le_iff_toNat]; exact Iff.rfl
  have h2 : (c.val ≤ (57 : UInt32)) ↔ c.toNat ≤ 57 := by
    rw [uint32_le_iff_toNat]; exact Iff.rfl
  simp only [Char.isDigit, ge_iff_le]
  by_cases hA : 48 ≤ c.toNat ∧ c.toNat ≤ 57
  · simp [h1.mpr hA.1, h2.mpr hA.2, hA]
  · rcases Decidable.not_and_iff_or_not.mp hA with h | h
    · simp [hA, h1.not.mpr h]
    · simp [hA, h2.not.mpr h]

theorem ishex_char (c : Char) :
    is_ascii_hexdigit c =
      decide ((48 ≤ c.toNat ∧ c.toNat ≤ 57) ∨ (97 ≤ c.toNat ∧ c.toNat ≤ 102)
        ∨ (65 ≤ c.toNat ∧ c.toNat ≤ 70)) := by
  have ha : ('a' ≤ c) ↔ 97 ≤ c.toNat := char_le_iff_toNat
  have hf : (c ≤ 'f') ↔ c.toNat ≤ 102 := char_le_iff_toNat
  have hA : ('A' ≤ c) ↔ 65 ≤ c.toNat := char_le_iff_toNat
  have hF : (c ≤ 'F') ↔ c.toNat ≤ 70 := char_le_iff_toNat
  simp only [is_ascii_hexdigit, isDigit_char]
  by_cases h1 : 48 ≤ c.toNat ∧ c.toNat ≤ 57 <;>
    by_cases h2 : 97 ≤ c.toNat ∧ c.toNat ≤ 102 <;>
      by_cases h3 : 65 ≤ c.toNat ∧ c.toNat ≤ 70 <;>
        simp [h1, h2, h3, ha, hf, hA, hF] <;> omega

theorem to_lowercase_toNat (c : Char) (h : 65 ≤ c.toNat) (h' : c.toNat ≤ 90) :
    (to_lowercase c).toNat = c.toNat + 32 := by
  unfold to_lowercase
  rw [if_pos]
  · exact toNat_ofNat_valid (by omega) (by omega)
  · exact ⟨char_le_iff_toNat.mpr h, char_le_iff_toNat.mpr h'⟩

theorem to_lowercase_eq_self (c : Char) (h : ¬(65 ≤ c.toNat ∧ c.toNat ≤ 90)) :
    to_lowercase c = c := by
  unfold to_lowercase
  rw [if_neg]
  intro hc
  exact h ⟨char_le_iff_toNat.mp hc.1, char_le_iff_toNat.mp hc.2⟩

theorem to_lowercase_idem (c : Char) :
    to_lowercase (to_lowercase c) = to_lowercase c := by
  by_cases h : 65 ≤ c.toNat ∧ c.toNat ≤ 90
  · have := to_lowercase_toNat c h.1 h.2
    rw [to_lowercase_eq_self (to_lowercase c) (by omega)]
  · rw [to_lowercase_eq_self c h, to_lowercase_eq_self c h]

theorem isDigit_to_lowercase (c : Char) :
    (to_lowercase c).isDigit = c.isDigit := by
  by_cases h : 65 ≤ c.toNat ∧ c.toNat ≤ 90
  · have := to_lowercase_toNat c h.1 h.2
    rw [isDigit_char, isDigit_char]
    exact decide_eq_decide.mpr (by omega)
  · rw [to_lowercase_eq_self c h]

theorem ishex_to_lowercase (c : Char) :
    is_ascii_hexdigit (to_lowercase c) = is_ascii_hexdigit c := by
  by_cases h : 65 ≤ c.toNat ∧ c.toNat ≤ 90
  · have := to_lowercase_toNat c h.1 h.2
    rw [ishex_char, ishex_char]
    exact decide_eq_decide.mpr (by omega)
  · rw [to_lowercase_eq_self c h]

theorem dot_to_lowercase (c : Char) :
    ((to_lowercase c).isDigit || (to_lowercase c == '.'))
      = (c.isDigit || (c == '.')) := by
  by_cases h : 65 ≤ c.toNat ∧ c.toNat ≤ 90
  · have ht := to_lowercase_toNat c h.1 h.2
    have e1 : (to_lowercase c == '.') = false := by
      apply beq_eq_false_iff_ne.mpr
      intro he
      have : (to_lowercase c).toNat = 46 := by rw [he]; rfl
      omega
    have e2 : (c == '.') = false := by
      apply beq_eq_false_iff_ne.mpr
      intro he
      have : c.toNat = 46 := by rw [he]; rfl
      omega
    rw [e1, e2, isDigit_char, isDigit_char]
    simp only [Bool.or_false]
    exact decide_eq_decide.mpr (by omega)
  · rw [to_lowercase_eq_self c h]

/-! ### Run-level facts -/

theorem check_numeric_eq_all (l : RStr) : check_numeric l = l.all Char.isDigit := by
  induction l with
  | nil => rfl
  | cons c rest ih =>
    simp only [check_numeric, List.all_cons]
    by_cases h : c.isDigit <;> simp [h, ih]

theorem check_hexdigit_eq_all (l : RStr) :
    check_hexdigit l = l.all is_ascii_hexdigit := by
  induction l with
  | nil => rfl
  | cons c rest ih =>
    simp only [check_hexdigit, List.all_cons]
    by_cases h : is_ascii_hexdigit c <;> simp [h, ih]

theorem check_dotdigit_eq_all (l : RStr) :
    check_dotdigit l = l.all (fun c => c.isDigit || (c == '.')) := by
  induction l with
  | nil => rfl
  | cons c rest ih =>
    simp only [check_dotdigit, List.all_cons]
    by_cases h : (c.isDigit || (c == '.')) = true <;> simp_all

theorem all_congr_fn {α : Type} {p q : α → Bool} (h : ∀ a, p a = q a) :
    ∀ l : List α, l.all p = l.all q := by
  intro l
  induction l with
  | nil => rfl
  | cons a l ih => simp [h a, ih]

theorem map_congr_fn {α β : Type} {f g : α → β} (h : ∀ a, f a = g a) :
    ∀ l : List α, l.map f = l.map g := by
  intro l
  induction l with
  | nil => rfl
  | cons a l ih => simp [h a, ih]

theorem all_isDigit_map_lower (l : RStr) :
    (l.map to_lowercase).all Char.isDigit = l.all Char.isDigit := by
  rw [List.all_map]
  exact all_congr_fn (fun c => isDigit_to_lowercase c) l

theorem all_ishex_map_lower (l : RStr) :
    (l.map to_lowercase).all is_ascii_hexdigit = l.all is_ascii_hexdigit := by
  rw [List.all_map]
  exact all_congr_fn (fun c => ishex_to_lowercase c) l

theorem all_dot_map_lower (l : RStr) :
    (l.map to_lowercase).all (fun c => c.isDigit || (c == '.'))
      = l.all (fun c => c.isDigit || (c == '.')) := by
  rw [List.all_map]
  exact all_congr_fn (fun c => dot_to_lowercase c) l

/-- A slice of length 1 never survives the filter chain: a single digit is
removed as purely numeric, anything else by the minimum-length rule. -/
theorem process_token_singleton (x : Char) : process_token [x] = none := by
  unfold process_token
  by_cases h : x.isDigit
  · simp [OPTION_EXCLUDE_NUMERIC, check_numeric, h]
  · simp [OPTION_EXCLUDE_NUMERIC, check_numeric, h, OPTION_TO_LOWERCASE,
      OPTION_TOKEN_MIN_LENGTH]

/-- C3 (tokenizer output invariants): every token produced by
`extract_tokens` has length at least 3, is lower-case (lowercasing it again
changes nothing), is not composed entirely of digits, is not composed
entirely of hexadecimal digits with length at least 20, and is not composed
entirely of digits and `'.'`. -/
theorem extract_tokens_invariants (s t : RStr) (hmem : t ∈ extract_tokens s) :
    3 ≤ t.length ∧
    t.map to_lowercase = t ∧
    ¬(t.all Char.isDigit = true) ∧
    ¬(t.all is_ascii_hexdigit = true ∧ 20 ≤ t.length) ∧
    ¬(t.all (fun c => c.isDigit || (c == '.')) = true) := by
  obtain ⟨run, -, hrun⟩ := List.mem_filterMap.mp hmem
  unfold process_token at hrun
  simp only [OPTION_EXCLUDE_NUMERIC, OPTION_TO_LOWERCASE, OPTION_REMOVE_HEXCODE,
    OPTION_REMOVE_DOT_DIGIT, OPTION_TOKEN_MIN_LENGTH, OPTION_HEXCODE_MIN_LENGTH,
    Bool.true_and, if_true] at hrun
  by_cases h1 : check_numeric run = true
  · rw [if_pos h1] at hrun
    exact absurd hrun (by simp)
  · rw [if_neg h1] at hrun
    by_cases h2 : (run.map to_lowercase).length < 3
    · rw [if_pos h2] at hrun
      exact absurd hrun (by simp)
    · rw [if_neg h2] at hrun
      by_cases h3 : (check_hexdigit run && decide (20 ≤ run.length)) = true
      · rw [if_pos h3] at hrun
        exact absurd hrun (by simp)
      · rw [if_neg h3] at hrun
        by_cases h4 : check_dotdigit run = true
        · rw [if_pos h4] at hrun
          exact absurd hrun (by simp)
        · rw [if_neg h4] at hrun
          have ht : t = run.map to_lowercase := (Option.some.inj hrun).symm
          subst ht
          have hlen : (run.map to_lowercase).length = run.length :=
            List.length_map _ _
          refine ⟨by omega, ?_, ?_, ?_, ?_⟩
          · rw [List.map_map]
            exact map_congr_fn (fun c => to_lowercase_idem c) run
          · rw [all_isDigit_map_lower, ← check_numeric_eq_all]
            exact fun hc => h1 hc
          · rintro ⟨ha, hl⟩
            rw [all_ishex_map_lower, ← check_hexdigit_eq_all] at ha
            rw [hlen] at hl
            exact h3 (by simp [ha, hl])
          · rw [all_dot_map_lower, ← check_dotdigit_eq_all]
            exact fun hc => h4 hc

/-- Witness for C3 at a concrete input. -/
theorem extract_tokens_invariants_witness :
    "hello".data ∈ extract_tokens "x Hello world!".data ∧
    (3 ≤ "hello".data.length ∧
     "hello".data.map to_lowercase = "hello".data ∧
     ¬("hello".data.all Char.isDigit = true) ∧
     ¬("hello".data.all is_ascii_hexdigit = true ∧ 20 ≤ "hello".data.length) ∧
     ¬("hello".data.all (fun c => c.isDigit || (c == '.')) = true)) := by
  constructor
  · decide
  · exact extract_tokens_invariants "x Hello world!".data "hello".data (by decide)

/-! ### Concatenation law for the tokenizer -/

/-- Variant of `token_runs` describing a scan that will be followed by a
separator: at end-of-input a pending run is always emitted (in the real scan
the separator makes `begin < end` hold). Proof device for the
concatenation law. -/
def token_runs_sep : Option RStr → RStr → List RStr
  | none, [] => []
  | some acc, [] => [acc.reverse]
  | none, c :: rest =>
      if is_token_char c then token_runs_sep (some [c]) rest
      else token_runs_sep none rest
  | some acc, c :: rest =>
      if is_token_char c then token_runs_sep (some (c :: acc)) rest
      else acc.reverse :: token_runs_sep none rest

theorem token_runs_append (c : Char) (hc : is_token_char c = false) :
    ∀ (a : RStr) (mode : Option RStr) (b : RStr),
      token_runs mode (a ++ c :: b) = token_runs_sep mode a ++ token_runs none b := by
  intro a
  induction a with
  | nil =>
    intro mode b
    cases mode with
    | none => simp [token_runs, token_runs_sep, hc]
    | some acc => simp [token_runs, token_runs_sep, hc]
  | cons x a ih =>
    intro mode b
    cases mode with
    | none =>
      by_cases hx : is_token_char x <;>
        simp only [List.cons_append, token_runs, token_runs_sep, hx, List.append_eq,
          if_true, if_false, Bool.false_eq_true, ite_false, ite_true] <;>
        rw [ih]
    | some acc =>
      by_cases hx : is_token_char x
      · simp only [List.cons_append, token_runs, token_runs_sep, hx, List.append_eq,
          ite_true]
        rw [ih]
      · simp only [List.cons_append, token_runs, token_runs_sep, hx, List.append_eq,
          Bool.false_eq_true, ite_false]
        rw [ih]

theorem filterMap_token_runs_sep :
    ∀ (a : RStr) (mode : Option RStr),
      (token_runs_sep mode a).filterMap process_token
        = (token_runs mode a).filterMap process_token := by
  intro a
  induction a with
  | nil =>
    intro mode
    cases mode with
    | none => rfl
    | some acc =>
      by_cases h1 : acc.length = 1
      · obtain ⟨x, hx⟩ := List.length_eq_one.mp h1
        subst hx
        simp [token_runs, token_runs_sep, process_token_singleton]
      · simp [token_runs, token_runs_sep, h1]
  | cons x a ih =>
    intro mode
    cases mode with
    | none =>
      by_cases hx : is_token_char x <;>
        simp only [token_runs, token_runs_sep, hx, Bool.false_eq_true,
          ite_true, ite_false] <;>
        rw [ih]
    | some acc =>
      by_cases hx : is_token_char x
      · simp only [token_runs, token_runs_sep, hx, ite_true]
        rw [ih]
      · simp only [token_runs, token_runs_sep, hx, Bool.false_eq_true, ite_false,
          List.filterMap_cons]
        cases process_token acc.reverse <;> rw [ih]

/-- C4 (tokenizer concatenation law): tokenizing two strings joined by a
separator character (one that is neither alphanumeric nor one of
`.`, `_`, `-`, `@`) yields the concatenation of their token sequences. -/
theorem extract_tokens_sep_append (a b : RStr) (c : Char)
    (hc : is_token_char c = false) :
    extract_tokens (a ++ c :: b) = extract_tokens a ++ extract_tokens b := by
  unfold extract_tokens
  rw [token_runs_append c hc a none b, List.filterMap_append,
    filterMap_token_runs_sep]

/-- Witness for C4 at a concrete input. -/
theorem extract_tokens_sep_append_witness :
    is_token_char ' ' = false ∧
    extract_tokens ("abc7".data ++ ' ' :: "Qx def.9".data)
      = extract_tokens "abc7".data ++ extract_tokens "Qx def.9".data :=
  ⟨by decide, extract_tokens_sep_append "abc7".data "Qx def.9".data ' ' (by decide)⟩

/-! ## Core types (`src/lib.rs`) -/

/-- `ClusterId` (lib.rs:15): `usize`. -/
abbrev ClusterId := Nat

/-- `MessageId` (lib.rs:20). -/
abbrev MessageId := RStr

/-- `Score` (lib.rs:16): `f32`, modelled as `Float`. -/
abbrev Score := Float

/-- `TidbId` / `RuleId` (lib.rs:17-18): `u32`. -/
abbrev TidbId := Nat

abbrev RuleId := Nat

/-- `Qualifier` (lib.rs:114-119). -/
inductive Qualifier where
  | Benign
  | Unknown
  | Suspicious
  | Mixed
deriving DecidableEq, Repr

/-- `Default for Qualifier` (lib.rs:151-155). -/
def Qualifier.default : Qualifier := Qualifier.Unknown

/-- `FromStr for Qualifier` (lib.rs:157-168): exactly the four lower-case
names parse; anything else is an error. -/
def Qualifier.from_str (value : RStr) : Option Qualifier :=
  if value = "benign".data then some Qualifier.Benign
  else if value = "suspicious".data then some Qualifier.Suspicious
  else if value = "unknown".data then some Qualifier.Unknown
  else if value = "mixed".data then some Qualifier.Mixed
  else none

/-- `FilterOp` (lib.rs:182-189). -/
inductive FilterOp where
  | L
  | LE
  | G
  | GE
  | EQ
  | NE
deriving DecidableEq, Repr

/-- `Display for FilterOp` (lib.rs:196-207). -/
def FilterOp.display : FilterOp → RStr
  | FilterOp.L => "<".data
  | FilterOp.G => ">".data
  | FilterOp.LE => "<=".data
  | FilterOp.GE => ">=".data
  | FilterOp.EQ => "=".data
  | FilterOp.NE => "<>".data

/-- `FilterType` (lib.rs:225-239). -/
inductive FilterType where
  | NoFilter
  | Auto
  | Count
  | IPaddr
  | Label
  | Qualifier
  | Regex
  | Score
  | LabelScore
  | Sort
  | Status
  | Time
  | Token
deriving DecidableEq, Repr

/-- Rust `str::parse::<usize>()`: an optional leading `+` followed by one or
more ASCII digits, rejecting anything else and values that overflow 64-bit
`usize`. -/
def parse_usize (s : RStr) : Option Nat :=
  let t := match s with
    | '+' :: rest => rest
    | _ => s
  if t ≠ [] ∧ t.all Char.isDigit then
    let n := t.foldl (fun acc c => acc * 10 + (c.toNat - 48)) 0
    if n < 2 ^ 64 then some n else none
  else none

/-- Rust `str::parse::<u32>()` (same grammar, 32-bit bound). -/
def parse_u32 (s : RStr) : Option Nat :=
  let t := match s with
    | '+' :: rest => rest
    | _ => s
  if t ≠ [] ∧ t.all Char.isDigit then
    let n := t.foldl (fun acc c => acc * 10 + (c.toNat - 48)) 0
    if n < 2 ^ 32 then some n else none
  else none

/-! ## Sorting helpers

`Vec::sort_unstable` on ids is modelled by insertion sort (any ascending
sort realises the Rust contract), `Vec::dedup` (removal of consecutive
duplicates, keeping the first of each run) by `vec_dedup`. -/

/-- `Vec::sort_unstable` for `usize` ids: sort ascending. -/
def sort_ids (l : List Nat) : List Nat := List.insertionSort (· ≤ ·) l

/-- `Vec::dedup`: drop the elements equal to the previously retained one. -/
def vec_dedup_from (prev : Nat) : List Nat → List Nat
  | [] => []
  | b :: rest =>
      if b = prev then vec_dedup_from prev rest else b :: vec_dedup_from b rest

def vec_dedup : List Nat → List Nat
  | [] => []
  | a :: rest => a :: vec_dedup_from a rest

theorem vec_dedup_from_subset (prev : Nat) (l : List Nat) :
    ∀ x ∈ vec_dedup_from prev l, x ∈ l := by
  induction l generalizing prev with
  | nil => simp [vec_dedup_from]
  | cons b rest ih =>
    intro x hx
    simp only [vec_dedup_from] at hx
    by_cases hb : b = prev
    · rw [if_pos hb] at hx
      exact List.mem_cons_of_mem b (ih prev x hx)
    · rw [if_neg hb] at hx
      rcases List.mem_cons.mp hx with h | h
      · exact h ▸ List.mem_cons_self b rest
      · exact List.mem_cons_of_mem b (ih b x h)

theorem vec_dedup_from_pairwise (prev : Nat) (l : List Nat)
    (h : List.Pairwise (· ≤ ·) (prev :: l)) :
    List.Pairwise (· < ·) (prev :: vec_dedup_from prev l) := by
  induction l generalizing prev with
  | nil => simp [vec_dedup_from]
  | cons b rest ih =>
    simp only [vec_dedup_from]
    by_cases hb : b = prev
    · rw [if_pos hb]
      apply ih prev
      subst hb
      exact h.sublist (by simp)
    · rw [if_neg hb]
      have hpb : prev ≤ b := (List.pairwise_cons.mp h).1 b (by simp)
      have htail : List.Pairwise (· ≤ ·) (b :: rest) :=
        h.sublist (List.sublist_cons_self _ _)
      have hrec := ih b htail
      apply List.pairwise_cons.mpr
      refine ⟨?_, hrec⟩
      intro x hx
      rcases List.mem_cons.mp hx with hxb | hxr
      · subst hxb; omega
      · have hxrest := vec_dedup_from_subset b rest x hxr
        have : b ≤ x := (List.pairwise_cons.mp htail).1 x hxrest
        omega

theorem vec_dedup_pairwise (l : List Nat) (h : List.Pairwise (· ≤ ·) l) :
    List.Pairwise (· < ·) (vec_dedup l) := by
  cases l with
  | nil => simp [vec_dedup]
  | cons a rest => exact vec_dedup_from_pairwise a rest h

theorem sort_ids_pairwise (l : List Nat) :
    List.Pairwise (· ≤ ·) (sort_ids l) :=
  List.sorted_insertionSort (· ≤ ·) l

/-! ## Event Store (`src/events.rs`)

Only the query surface needed by the engine is modelled; loading
(`Events::new`) is file I/O.  The `regex` crate is abstracted: a compiled
regex is a predicate `RStr → Bool` on record contents. -/

/-- `Message` (events.rs:10-15); the `_id` field is omitted (it duplicates
the map key and is never read). -/
structure Message where
  content : RStr
  tokens : List RStr

/-- `Events` (events.rs:17-22): `HashMap<MessageId, Message>`, modelled as a
lookup function. -/
structure Events where
  events : MessageId → Option Message

/-- `Events::regex_match` (events.rs:110-132): the ids among `event_ids`
whose raw content matches the compiled regex, in input order.  The source's
`filter_map(.. map(if .. Some else None)).flatten()` is written directly as
one `filterMap`. -/
def Events.regex_match (es : Events) (is_match : RStr → Bool)
    (event_ids : List MessageId) : List MessageId :=
  event_ids.filterMap fun msg_id =>
    match es.events msg_id with
    | some event => if is_match event.content then some msg_id else none
    | none => none

/-! ## Label Store (`src/labels.rs`)

Only the queries the engine claims rely on are modelled
(`find_clusters`, `is_labeled`); the `HashMap`s are association lists in
iteration order. -/

/-- `Labels` (labels.rs:21-27), restricted to the two indices the verified
claims read; `clusters_events_map`, `representative` and `events` are
display/statistics-only. -/
structure Labels where
  clusters_labels_map : List (ClusterId × List (TidbId × RuleId))
  labels_clusters_map : List ((TidbId × RuleId) × List ClusterId)

/-- `Labels::find_clusters` (labels.rs:133-145): collect the cluster lists
of every pattern matching `(tidb_id, rule_id)` (0 is a wildcard on either
axis), then `sort_unstable` and `dedup`. -/
def Labels.find_clusters (ls : Labels) (tidb_id : TidbId) (rule_id : RuleId) :
    List ClusterId :=
  let found := ls.labels_clusters_map.foldl
    (fun acc p =>
      if (p.1.1 = tidb_id ∨ tidb_id = 0) ∧ (p.1.2 = rule_id ∨ rule_id = 0)
      then acc ++ p.2 else acc)
    []
  vec_dedup (sort_ids found)

/-- `Labels::is_labeled` (labels.rs:147-149): `contains_key` on
`clusters_labels_map`. -/
def Labels.is_labeled (ls : Labels) (cluster_id : ClusterId) : Bool :=
  ls.clusters_labels_map.any fun p => p.1 = cluster_id

/-! ## Cluster Store (`src/cluster.rs`) -/

/-- `SIGNATURE_DISPLAY_LENGTH` (cluster.rs:13). -/
def SIGNATURE_DISPLAY_LENGTH : Nat := 200

/-- `CLUSTER_ID_FOR_OUTLIERS` (cluster.rs:14). -/
def CLUSTER_ID_FOR_OUTLIERS : ClusterId := 1000000

/-- `ClusterMember` (cluster.rs:25-32): one parsed cluster record. -/
structure ClusterMember where
  cluster_id : ClusterId
  cluster_size : Nat
  signature : Option RStr
  score : Option Score
  events : List MessageId

/-- `SavedClusters` (cluster.rs:15-23): the parsed cluster file.  The count
attributes are only logged and omitted here. -/
structure SavedClusters where
  clusters : List ClusterMember
  outliers : List RStr

/-- `SavedClusters::cluster_ids` (cluster.rs:37-41). -/
def SavedClusters.cluster_ids (sc : SavedClusters) : List ClusterId :=
  sort_ids (sc.clusters.map fun c => c.cluster_id)

/-- `Members` (cluster.rs:56-67): per-cluster record. -/
structure Members where
  id : ClusterId
  size : Nat
  score : Score
  qualifier : Qualifier
  new_qualifier : Qualifier
  signature : Option RStr
  event_ids : List MessageId
  filtered_events : List (List MessageId)
  filter : List RStr

/-- `Members::set_qualifier` (cluster.rs:100-106): update `new_qualifier`
and report whether it changed. -/
def Members.set_qualifier (m : Members) (qualifier : Qualifier) :
    Bool × Members :=
  if m.new_qualifier ≠ qualifier then
    (true, { m with new_qualifier := qualifier })
  else
    (false, m)

/-- `Clusters` (cluster.rs:109-115).  `clusters_map` is the
`HashMap<ClusterId, Members>` as a lookup function; the token index is
untouched by the verified claims and kept as a lookup function too. -/
structure Clusters where
  clusters : List ClusterId
  outliers_raw : List RStr
  clusters_map : ClusterId → Option Members
  tokens_clusters_map : RStr → Option (List ClusterId)

/-- Map update used to model `HashMap::insert`. -/
def map_insert (m : ClusterId → Option Members) (k : ClusterId) (v : Members) :
    ClusterId → Option Members :=
  fun k' => if k' = k then some v else m k'

/-- The qualifier-seeded member built for one parsed record
(cluster.rs:132-156): `Suspicious` if the label store knows the cluster,
otherwise the default. -/
def member_of_record (labels : Labels) (m : ClusterMember) : Members :=
  let qualifier := if labels.is_labeled m.cluster_id then Qualifier.Suspicious
                   else Qualifier.default
  { id := m.cluster_id
    size := m.cluster_size
    score := m.score.getD 0
    qualifier := qualifier
    new_qualifier := qualifier
    signature := m.signature
    event_ids := m.events
    filtered_events := []
    filter := [] }

/-- Rust `str::split(char)` on the character-sequence model: split into
fields at every occurrence of `delim`, keeping empty fields. -/
def split_on (delim : Char) : RStr → List RStr
  | [] => [[]]
  | c :: rest =>
      if c = delim then [] :: split_on delim rest
      else
        match split_on delim rest with
        | [] => [[c]]
        | hd :: tl => (c :: hd) :: tl

/-- `Clusters::new` (cluster.rs:121-191), starting from the parsed
`SavedClusters`.  Members are inserted with label-based qualifier seeding;
if the outlier list is non-empty one synthetic cluster is inserted under
`CLUSTER_ID_FOR_OUTLIERS` whose event ids take field index 1 of each entry
split on `delimiter`, and the sentinel id is pushed onto the id list. -/
def Clusters.new (sc : SavedClusters) (labels : Labels) (delimiter : Char) :
    Clusters :=
  let clusters := sc.cluster_ids
  let clusters_map := sc.clusters.foldl
    (fun acc m => map_insert acc m.cluster_id (member_of_record labels m))
    (fun _ => none)
  if sc.outliers ≠ [] then
    let message_id_index := 1
    let event_ids := sc.outliers.filterMap
      (fun raw => (split_on delimiter raw).get? message_id_index)
    { clusters := clusters ++ [CLUSTER_ID_FOR_OUTLIERS]
      outliers_raw := sc.outliers
      clusters_map := map_insert clusters_map CLUSTER_ID_FOR_OUTLIERS
        { id := CLUSTER_ID_FOR_OUTLIERS
          size := sc.outliers.length
          score := 0
          qualifier := Qualifier.default
          new_qualifier := Qualifier.default
          signature := none
          event_ids := event_ids
          filtered_events := []
          filter := [] }
      tokens_clusters_map := fun _ => none }
  else
    { clusters := clusters
      outliers_raw := sc.outliers
      clusters_map := clusters_map
      tokens_clusters_map := fun _ => none }

/-- `Clusters::filter_clusters` (cluster.rs:287-338): keep, in input order,
the ids known to the map whose record satisfies the filter.  `f32` parsing
for the score filter is the abstract parameter `parse_f32` (modelling
`value.parse::<f32>().unwrap_or_default()`); `F32_EPSILON` stands for
`f32::EPSILON`. -/
def F32_EPSILON : Float := 1.1920928955078125e-7

def Clusters.filter_clusters (cs : Clusters) (parse_f32 : RStr → Float)
    (clusters : List ClusterId) (ft : FilterType) (op : FilterOp)
    (value : RStr) : List ClusterId :=
  clusters.filterMap fun cid =>
    match cs.clusters_map cid with
    | some c =>
      let matched :=
        match ft with
        | FilterType.Count =>
          let count := (parse_usize value).getD 0
          match op with
          | FilterOp.L => decide (c.size < count)
          | FilterOp.G => decide (c.size > count)
          | FilterOp.LE => decide (c.size ≤ count)
          | FilterOp.GE => decide (c.size ≥ count)
          | FilterOp.EQ => decide (c.size = count)
          | FilterOp.NE => decide (c.size ≠ count)
        | FilterType.Score =>
          let score := parse_f32 value
          match op with
          | FilterOp.L => c.score < score
          | FilterOp.G => c.score > score
          | FilterOp.LE => c.score ≤ score
          | FilterOp.GE => c.score ≥ score
          | FilterOp.EQ => (c.score - score).abs < F32_EPSILON
          | FilterOp.NE => (c.score - score).abs > F32_EPSILON
        | FilterType.Qualifier =>
          let qualifier := (Qualifier.from_str value).getD Qualifier.default
          decide (c.new_qualifier = qualifier)
        | _ => false
      if matched then some cid else none
    | none => none

/-- `Clusters::regex_match` (cluster.rs:340-362): a cluster matches when any
of its member events' content matches; invalid regex syntax is an error.
`compile` abstracts `Regex::new`. -/
def Clusters.regex_match (cs : Clusters)
    (compile : RStr → Except RStr (RStr → Bool)) (clusters : List ClusterId)
    (pattern : RStr) (events : Events) : Except RStr (List ClusterId) :=
  match compile pattern with
  | Except.error e => Except.error e
  | Except.ok is_match =>
    Except.ok (clusters.filterMap fun cid =>
      match cs.clusters_map cid with
      | some c =>
        let matched := events.regex_match is_match c.event_ids
        if matched.isEmpty then none else some cid
      | none => none)

/-- `Clusters::set_qualifier` (cluster.rs:406-411). -/
def Clusters.set_qualifier (cs : Clusters) (cid : ClusterId)
    (qualifier : Qualifier) : Bool × Clusters :=
  match cs.clusters_map cid with
  | some c =>
    let r := c.set_qualifier qualifier
    (r.1, { cs with clusters_map := map_insert cs.clusters_map cid r.2 })
  | none => (false, cs)

/-! ## Navigation Engine (`src/matcher.rs`) -/

/-- `FilteredClusters` (matcher.rs:14-20): one filter round. -/
structure FilteredClusters where
  filtertype : FilterType
  op : FilterOp
  pattern : RStr
  clusters : List ClusterId

/-- `TitleMatch` (matcher.rs:32-38).  The rule catalog (`tidbs`) only feeds
display-name lookups and is omitted.  `rounds` is the `Vec<FilteredClusters>`
round stack: bottom first, `last` is the top. -/
structure TitleMatch where
  clusters : Clusters
  events : Events
  labels : Labels
  rounds : List FilteredClusters

/-- `TitleMatch::filter_by` (matcher.rs:187-215): filter the current top
round; push a new round and return its size when the result is non-empty,
otherwise report no match and leave everything unchanged. -/
def TitleMatch.filter_by (parse_f32 : RStr → Float) (tm : TitleMatch)
    (ft : FilterType) (op : FilterOp) (value : RStr) :
    Option Nat × TitleMatch :=
  match tm.rounds.getLast? with
  | none => (none, tm)
  | some last =>
    let clusters := tm.clusters.filter_clusters parse_f32 last.clusters ft op value
    if clusters.isEmpty then (none, tm)
    else
      let cnt := clusters.length
      let pattern := if ft = FilterType.Qualifier then value
                     else op.display ++ ' ' :: value
      (some cnt,
        { tm with rounds := tm.rounds ++
            [{ filtertype := ft, op := op, pattern := pattern,
               clusters := clusters }] })

/-- `parse_pattern_id` (matcher.rs:381-398): split on `':'`, parse the
first field as the tidb id and the second as the rule id, 0 when absent or
unparsable. -/
def parse_pattern_id (pattern_id : Option RStr) : TidbId × RuleId :=
  match pattern_id with
  | none => (0, 0)
  | some id =>
    let s := split_on ':' id
    let tidb_id := match s.get? 0 with
      | some v => (parse_u32 v).getD 0
      | none => 0
    let rule_id := match s.get? 1 with
      | some v => (parse_u32 v).getD 0
      | none => 0
    (tidb_id, rule_id)

/-- `TitleMatch::filter_by_label` (matcher.rs:221-249): query the label
store over the whole index, keep (`retain`) the found ids that are in the
current round, and push that list when non-empty. -/
def TitleMatch.filter_by_label (tm : TitleMatch) (ft : FilterType)
    (op : FilterOp) (pattern_id : Option RStr) : Option Nat × TitleMatch :=
  let t := parse_pattern_id pattern_id
  match tm.rounds.getLast? with
  | none => (none, tm)
  | some last =>
    let found := (tm.labels.find_clusters t.1 t.2).filter
      (fun cluster_id => last.clusters.contains cluster_id)
    if found.isEmpty then (none, tm)
    else
      let cnt := found.length
      let pattern := match pattern_id with
        | some v => v
        | none => "All".data
      (some cnt,
        { tm with rounds := tm.rounds ++
            [{ filtertype := ft, op := op, pattern := pattern,
               clusters := found }] })

/-- Body of `TitleMatch::filter_by_regex` after the negation prefix is
resolved (matcher.rs:266-297). -/
def TitleMatch.filter_by_regex_go (compile : RStr → Except RStr (RStr → Bool))
    (tm : TitleMatch) (last : FilteredClusters) (negate : Bool)
    (pattern : RStr) : Option Nat × TitleMatch :=
  match tm.clusters.regex_match compile last.clusters pattern tm.events with
  | Except.error _ => (none, tm)
  | Except.ok matched =>
    let clusters := bif negate
      then last.clusters.filter (fun cid => ¬ matched.contains cid)
      else matched
    if clusters.isEmpty then (none, tm)
    else
      (some clusters.length,
        { tm with rounds := tm.rounds ++
            [{ filtertype := FilterType.Regex, op := FilterOp.EQ,
               pattern := pattern, clusters := clusters }] })

/-- `TitleMatch::filter_by_regex` (matcher.rs:251-298): a leading `!`
(`starts_with('!')`) negates the match and is stripped (`get(1..)`); a bare
`!` is "no match"; a regex syntax error is reported and leaves the state
unchanged. -/
def TitleMatch.filter_by_regex (compile : RStr → Except RStr (RStr → Bool))
    (tm : TitleMatch) (pattern : RStr) : Option Nat × TitleMatch :=
  match tm.rounds.getLast? with
  | none => (none, tm)
  | some last =>
    if pattern.head? = some '!' then
      if pattern.length = 1 then (none, tm)
      else TitleMatch.filter_by_regex_go compile tm last true (pattern.drop 1)
    else TitleMatch.filter_by_regex_go compile tm last false pattern

/-- `TitleMatch::remove_filter` (matcher.rs:343-350): error iff the round
stack is empty, otherwise pop the top round. -/
def TitleMatch.remove_filter (tm : TitleMatch) : Except RStr Unit × TitleMatch :=
  if tm.rounds.isEmpty then
    (Except.error "Failed to remove the filtered clusters.".data, tm)
  else
    (Except.ok (), { tm with rounds := tm.rounds.dropLast })

/-- The `all == true` loop of `TitleMatch::set_qualifier`
(matcher.rs:358-363): update every cluster of the round in order, counting
the actual changes. -/
def set_qualifier_loop (cs : Clusters) (nq : Qualifier) (cnt : Nat) :
    List ClusterId → Nat × Clusters
  | [] => (cnt, cs)
  | cid :: rest =>
    let r := cs.set_qualifier cid nq
    set_qualifier_loop r.2 nq (if r.1 then cnt + 1 else cnt) rest

/-- `TitleMatch::set_qualifier` (matcher.rs:352-378): `none` when there is
no round or the qualifier string does not parse; otherwise update the whole
round (`all`) or the cluster at `idx`, returning the number of clusters
actually changed. -/
def TitleMatch.set_qualifier (tm : TitleMatch) (idx : Nat) (qualifier : RStr)
    (all : Bool) : Option Nat × TitleMatch :=
  match tm.rounds.getLast? with
  | none => (none, tm)
  | some last =>
    match Qualifier.from_str qualifier with
    | none => (none, tm)
    | some nq =>
      if all then
        let r := set_qualifier_loop tm.clusters nq 0 last.clusters
        (some r.1, { tm with clusters := r.2 })
      else
        if h : idx < last.clusters.length then
          let cid := last.clusters.get ⟨idx, h⟩
          let r := tm.clusters.set_qualifier cid nq
          (some (if r.1 then 1 else 0), { tm with clusters := r.2 })
        else (none, tm)

/-! ## Concrete fixtures used by witnesses -/

def sample_member (i : ClusterId) (size : Nat) : Members :=
  { id := i, size := size, score := 0, qualifier := Qualifier.Unknown,
    new_qualifier := Qualifier.Unknown, signature := none,
    event_ids := [], filtered_events := [], filter := [] }

def sample_clusters : Clusters :=
  { clusters := [1, 2]
    outliers_raw := []
    clusters_map := fun k =>
      if k = 1 then some (sample_member 1 10)
      else if k = 2 then some (sample_member 2 2)
      else none
    tokens_clusters_map := fun _ => none }

def base_round : FilteredClusters :=
  { filtertype := FilterType.NoFilter, op := FilterOp.EQ,
    pattern := "Clusters".data, clusters := [1, 2] }

def no_events : Events := { events := fun _ => none }

def no_labels : Labels := { clusters_labels_map := [], labels_clusters_map := [] }

/-- A freshly constructed engine: two clusters (sizes 10 and 2), the base
round holding the full list. -/
def sample_tm : TitleMatch :=
  { clusters := sample_clusters, events := no_events, labels := no_labels,
    rounds := [base_round] }

def sample_tm_norounds : TitleMatch :=
  { clusters := sample_clusters, events := no_events, labels := no_labels,
    rounds := [] }

def zero_f32 : RStr → Float := fun _ => 0

/-! ## C1: `remove_filter` and the base round -/

/-- C1 counterexample: on a stack holding only the base round (the full
cluster list), `remove_filter` succeeds and pops it, leaving an empty
stack — it does not fail. -/
theorem remove_filter_pops_base_round :
    sample_tm.rounds.length = 1 ∧
    (sample_tm.remove_filter).1 = Except.ok () ∧
    (sample_tm.remove_filter).2.rounds = [] :=
  ⟨rfl, rfl, rfl⟩

/-- C1 (amended): `remove_filter` fails exactly when the round stack is
empty; whenever the stack is non-empty — including when it holds only the
base round — it pops the top round, so the bottom round can be popped. -/
theorem remove_filter_spec (tm : TitleMatch) :
    (tm.rounds = [] →
      tm.remove_filter =
        (Except.error "Failed to remove the filtered clusters.".data, tm)) ∧
    (tm.rounds ≠ [] →
      tm.remove_filter =
        (Except.ok (), { tm with rounds := tm.rounds.dropLast })) := by
  constructor
  · intro h
    unfold TitleMatch.remove_filter
    rw [if_pos (List.isEmpty_iff.mpr h)]
  · intro h
    unfold TitleMatch.remove_filter
    rw [if_neg (fun hc => h (List.isEmpty_iff.mp hc))]

/-- Witness for C1's amended statement at concrete states. -/
theorem remove_filter_spec_witness :
    (sample_tm_norounds.rounds = [] ∧
      sample_tm_norounds.remove_filter =
        (Except.error "Failed to remove the filtered clusters.".data,
          sample_tm_norounds)) ∧
    (sample_tm.rounds ≠ [] ∧
      sample_tm.remove_filter =
        (Except.ok (), { sample_tm with rounds := sample_tm.rounds.dropLast })) :=
  ⟨⟨rfl, (remove_filter_spec sample_tm_norounds).1 rfl⟩,
   ⟨fun h => List.cons_ne_nil base_round [] h,
    (remove_filter_spec sample_tm).2 (fun h => List.cons_ne_nil base_round [] h)⟩⟩

/-! ## C2: filter-then-exit round trip -/

/-- C2: when `filter_by` succeeds (non-empty result, a round is pushed), an
immediately following `remove_filter` returns the engine to exactly the
prior state — in particular the visible (top) cluster list is restored. -/
theorem filter_by_then_remove (parse_f32 : RStr → Float) (tm : TitleMatch)
    (ft : FilterType) (op : FilterOp) (value : RStr) (n : Nat)
    (tm' : TitleMatch)
    (h : tm.filter_by parse_f32 ft op value = (some n, tm')) :
    tm'.remove_filter = (Except.ok (), tm) := by
  unfold TitleMatch.filter_by at h
  cases hl : tm.rounds.getLast? with
  | none =>
    rw [hl] at h
    simp at h
  | some last =>
    rw [hl] at h
    simp only at h
    by_cases he :
        (tm.clusters.filter_clusters parse_f32 last.clusters ft op value).isEmpty
    · rw [if_pos he] at h
      simp at h
    · rw [if_neg he] at h
      rw [Prod.mk.injEq] at h
      obtain ⟨-, h2⟩ := h
      subst h2
      unfold TitleMatch.remove_filter
      rw [if_neg (by simp)]
      rw [Prod.mk.injEq]
      refine ⟨rfl, ?_⟩
      simp only [List.dropLast_concat]

/-- Witness for C2: filtering the sample engine by `Count > 5` keeps
cluster 1 and pushes a round; exiting restores the original state. -/
def sample_tm_pushed : TitleMatch :=
  (sample_tm.filter_by zero_f32 FilterType.Count FilterOp.G "5".data).2

theorem filter_by_then_remove_witness :
    sample_tm.filter_by zero_f32 FilterType.Count FilterOp.G "5".data
      = (some 1, sample_tm_pushed) ∧
    sample_tm_pushed.remove_filter = (Except.ok (), sample_tm) :=
  ⟨rfl,
   filter_by_then_remove zero_f32 sample_tm FilterType.Count FilterOp.G
     "5".data 1 sample_tm_pushed rfl⟩

/-! ## C6: failed filters leave the stack untouched -/

theorem regex_go_unchanged (compile : RStr → Except RStr (RStr → Bool))
    (tm : TitleMatch) (last : FilteredClusters) (negate : Bool)
    (pattern : RStr)
    (h : (TitleMatch.filter_by_regex_go compile tm last negate pattern).1 = none) :
    (TitleMatch.filter_by_regex_go compile tm last negate pattern).2 = tm := by
  unfold TitleMatch.filter_by_regex_go at h ⊢
  cases hr : tm.clusters.regex_match compile last.clusters pattern tm.events with
  | error e => rfl
  | ok matched =>
    rw [hr] at h
    cases negate
    · simp only [Bool.cond_false] at h ⊢
      split at h
      · rename_i hcond
        rw [if_pos hcond]
      · simp at h
    · simp only [Bool.cond_true] at h ⊢
      split at h
      · rename_i hcond
        rw [if_pos hcond]
      · simp at h

/-- C6: filter application is atomic on failure — an empty `filter_by`
result pushes nothing and alters no state, a `filter_by_regex` returning
"no match" alters no state, and a regex whose compilation fails (invalid
syntax) is reported as a `none` result with the state unchanged. -/
theorem filter_failure_atomic :
    (∀ (parse_f32 : RStr → Float) (tm : TitleMatch) (ft : FilterType)
        (op : FilterOp) (value : RStr),
      (tm.filter_by parse_f32 ft op value).1 = none →
      (tm.filter_by parse_f32 ft op value).2 = tm) ∧
    (∀ (compile : RStr → Except RStr (RStr → Bool)) (tm : TitleMatch)
        (pattern : RStr),
      (tm.filter_by_regex compile pattern).1 = none →
      (tm.filter_by_regex compile pattern).2 = tm) ∧
    (∀ (compile : RStr → Except RStr (RStr → Bool)) (tm : TitleMatch)
        (pattern e : RStr),
      pattern.head? ≠ some '!' →
      compile pattern = Except.error e →
      tm.filter_by_regex compile pattern = (none, tm)) := by
  refine ⟨?_, ?_, ?_⟩
  · intro parse_f32 tm ft op value h
    unfold TitleMatch.filter_by at h ⊢
    cases hl : tm.rounds.getLast? with
    | none => rfl
    | some last =>
      rw [hl] at h
      simp only at h ⊢
      by_cases he :
          (tm.clusters.filter_clusters parse_f32 last.clusters ft op value).isEmpty
      · rw [if_pos he]
      · rw [if_neg he] at h
        simp at h
  · intro compile tm pattern h
    unfold TitleMatch.filter_by_regex at h ⊢
    cases hl : tm.rounds.getLast? with
    | none => rfl
    | some last =>
      rw [hl] at h
      simp only at h ⊢
      by_cases hh : pattern.head? = some '!'
      · rw [if_pos hh] at h ⊢
        by_cases hlen : pattern.length = 1
        · rw [if_pos hlen]
        · rw [if_neg hlen] at h ⊢
          exact regex_go_unchanged compile tm last true (pattern.drop 1) h
      · rw [if_neg hh] at h ⊢
        exact regex_go_unchanged compile tm last false pattern h
  · intro compile tm pattern e hhead hcomp
    unfold TitleMatch.filter_by_regex
    cases hl : tm.rounds.getLast? with
    | none => rfl
    | some last =>
      simp only
      rw [if_neg hhead]
      unfold TitleMatch.filter_by_regex_go
      unfold Clusters.regex_match
      rw [hcomp]

/-- Witness for C6 at concrete inputs: a count filter matching nothing, a
regex matching nothing, and a failing regex compilation. -/
def err_compile : RStr → Except RStr (RStr → Bool) :=
  fun _ => Except.error "regex parse error".data

theorem filter_failure_atomic_witness :
    ((sample_tm.filter_by zero_f32 FilterType.Count FilterOp.G "99".data).1 = none ∧
      (sample_tm.filter_by zero_f32 FilterType.Count FilterOp.G "99".data).2
        = sample_tm) ∧
    ((sample_tm.filter_by_regex (fun _ => Except.ok (fun _ => false))
        "abc".data).1 = none ∧
      (sample_tm.filter_by_regex (fun _ => Except.ok (fun _ => false))
        "abc".data).2 = sample_tm) ∧
    ("abc".data.head? ≠ some '!' ∧
      err_compile "abc".data = Except.error "regex parse error".data ∧
      sample_tm.filter_by_regex err_compile "abc".data = (none, sample_tm)) :=
  ⟨⟨rfl, filter_failure_atomic.1 zero_f32 sample_tm FilterType.Count FilterOp.G
      "99".data rfl⟩,
   ⟨rfl, filter_failure_atomic.2.1 (fun _ => Except.ok (fun _ => false))
      sample_tm "abc".data rfl⟩,
   ⟨by decide, rfl,
    filter_failure_atomic.2.2 err_compile sample_tm "abc".data
      "regex parse error".data (by decide) rfl⟩⟩

/-! ## C10: invalid qualifier strings -/

/-- C10: `set_qualifier` with a string that is not exactly one of
`benign`, `unknown`, `suspicious`, `mixed` returns `none` and leaves the
engine (all qualifier fields and the round stack) unchanged. -/
theorem set_qualifier_invalid (tm : TitleMatch) (idx : Nat) (all : Bool)
    (q : RStr) (h1 : q ≠ "benign".data) (h2 : q ≠ "suspicious".data)
    (h3 : q ≠ "unknown".data) (h4 : q ≠ "mixed".data) :
    tm.set_qualifier idx q all = (none, tm) := by
  have hq : Qualifier.from_str q = none := by
    unfold Qualifier.from_str
    rw [if_neg h1, if_neg h2, if_neg h3, if_neg h4]
  unfold TitleMatch.set_qualifier
  cases tm.rounds.getLast? with
  | none => rfl
  | some last =>
    simp only [hq]

/-- Witness for C10 at a concrete state and string. -/
theorem set_qualifier_invalid_witness :
    ("bogus".data ≠ "benign".data ∧ "bogus".data ≠ "suspicious".data ∧
      "bogus".data ≠ "unknown".data ∧ "bogus".data ≠ "mixed".data) ∧
    sample_tm.set_qualifier 0 "bogus".data true = (none, sample_tm) :=
  ⟨⟨by decide, by decide, by decide, by decide⟩,
   set_qualifier_invalid sample_tm 0 true "bogus".data (by decide) (by decide)
     (by decide) (by decide)⟩

/-! ## C5: count filtering -/

/-- Spec-side comparison for the count filter: `op` applied to the cluster
size and the parsed literal. -/
def count_cmp (op : FilterOp) (size count : Nat) : Bool :=
  match op with
  | FilterOp.L => decide (size < count)
  | FilterOp.G => decide (size > count)
  | FilterOp.LE => decide (size ≤ count)
  | FilterOp.GE => decide (size ≥ count)
  | FilterOp.EQ => decide (size = count)
  | FilterOp.NE => decide (size ≠ count)

/-- C5: the count filter keeps exactly the ids known to the store whose size
satisfies `op` against the literal parsed as an integer (an unparsable
literal counting as 0), in input order (`List.filter`); and concretely for
`filter(Count, >, "5")` membership in the result is equivalent to membership
in the input together with a known record of size above 5. -/
theorem filter_clusters_count_spec :
    (∀ (cs : Clusters) (parse_f32 : RStr → Float) (ids : List ClusterId)
        (op : FilterOp) (value : RStr),
      cs.filter_clusters parse_f32 ids FilterType.Count op value =
        ids.filter (fun cid =>
          match cs.clusters_map cid with
          | some c => count_cmp op c.size ((parse_usize value).getD 0)
          | none => false)) ∧
    (∀ (cs : Clusters) (parse_f32 : RStr → Float) (ids : List ClusterId)
        (cid : ClusterId),
      cid ∈ cs.filter_clusters parse_f32 ids FilterType.Count FilterOp.G
          "5".data ↔
        cid ∈ ids ∧ ∃ m, cs.clusters_map cid = some m ∧ 5 < m.size) := by
  have abstracted : ∀ (g : ClusterId → Option Members) (q : Members → Bool)
      (l : List ClusterId),
      (l.filterMap fun cid =>
        match g cid with
        | some c => if q c then some cid else none
        | none => none)
      = l.filter fun cid =>
          match g cid with
          | some c => q c
          | none => false := by
    intro g q l
    induction l with
    | nil => rfl
    | cons x l ih =>
      cases hx : g x with
      | none => simp [List.filterMap_cons, List.filter_cons, hx, ih]
      | some c =>
        by_cases hq : q c = true <;>
          simp [List.filterMap_cons, List.filter_cons, hx, hq, ih]
  have main : ∀ (cs : Clusters) (parse_f32 : RStr → Float)
      (ids : List ClusterId) (op : FilterOp) (value : RStr),
      cs.filter_clusters parse_f32 ids FilterType.Count op value =
        ids.filter (fun cid =>
          match cs.clusters_map cid with
          | some c => count_cmp op c.size ((parse_usize value).getD 0)
          | none => false) := by
    intro cs parse_f32 ids op value
    exact abstracted cs.clusters_map
      (fun c => count_cmp op c.size ((parse_usize value).getD 0)) ids
  refine ⟨main, ?_⟩
  intro cs parse_f32 ids cid
  rw [main cs parse_f32 ids FilterOp.G "5".data]
  rw [List.mem_filter]
  have h5 : (parse_usize "5".data).getD 0 = 5 := by decide
  constructor
  · rintro ⟨hin, hp⟩
    refine ⟨hin, ?_⟩
    cases hx : cs.clusters_map cid with
    | none => rw [hx] at hp; cases hp
    | some m =>
      rw [hx, h5] at hp
      refine ⟨m, rfl, ?_⟩
      have := of_decide_eq_true hp
      omega
  · rintro ⟨hin, m, hm, hsz⟩
    refine ⟨hin, ?_⟩
    rw [hm, h5]
    exact decide_eq_true (by omega)

/-! ## C7: qualifier assignment over a whole round -/

theorem member_set_qualifier_new (c : Members) (q : Qualifier) :
    ((c.set_qualifier q).2).new_qualifier = q := by
  unfold Members.set_qualifier
  by_cases h : c.new_qualifier ≠ q
  · rw [if_pos h]
  · rw [if_neg h]
    exact Decidable.not_not.mp h

theorem set_qualifier_step_at (cs : Clusters) (cid : ClusterId) (q : Qualifier) :
    ∀ m, ((cs.set_qualifier cid q).2).clusters_map cid = some m →
      m.new_qualifier = q := by
  intro m
  unfold Clusters.set_qualifier
  cases hx : cs.clusters_map cid with
  | none =>
    intro hm
    rw [hx] at hm
    cases hm
  | some c =>
    intro hm
    simp only [map_insert, if_pos rfl] at hm
    injection hm with hm'
    rw [← hm']
    exact member_set_qualifier_new c q

theorem set_qualifier_step_pres (cs : Clusters) (cid : ClusterId)
    (q : Qualifier) (k : ClusterId) (m' : Members)
    (h : ((cs.set_qualifier cid q).2).clusters_map k = some m') :
    m'.new_qualifier = q ∨ cs.clusters_map k = some m' := by
  unfold Clusters.set_qualifier at h
  cases hx : cs.clusters_map cid with
  | none =>
    rw [hx] at h
    exact Or.inr h
  | some c =>
    rw [hx] at h
    simp only [map_insert] at h
    by_cases hk : k = cid
    · rw [if_pos hk] at h
      injection h with h'
      left
      rw [← h']
      exact member_set_qualifier_new c q
    · rw [if_neg hk] at h
      exact Or.inr h

theorem set_qualifier_noop (cs : Clusters) (cid : ClusterId) (q : Qualifier)
    (h : ∀ m, cs.clusters_map cid = some m → m.new_qualifier = q) :
    cs.set_qualifier cid q = (false, cs) := by
  unfold Clusters.set_qualifier
  cases hx : cs.clusters_map cid with
  | none => rfl
  | some c =>
    have hc : c.new_qualifier = q := h c hx
    have hne : ¬(c.new_qualifier ≠ q) := fun hk => hk hc
    have hmem : c.set_qualifier q = (false, c) := by
      unfold Members.set_qualifier
      rw [if_neg hne]
    simp only [hmem]
    have hmap : map_insert cs.clusters_map cid c = cs.clusters_map := by
      funext k
      unfold map_insert
      by_cases hk : k = cid
      · rw [if_pos hk, hk, hx]
      · rw [if_neg hk]
    rw [hmap]

theorem loop_count_le (q : Qualifier) :
    ∀ (l : List ClusterId) (cs : Clusters) (cnt : Nat),
      (set_qualifier_loop cs q cnt l).1 ≤ cnt + l.length := by
  intro l
  induction l with
  | nil => intro cs cnt; simp [set_qualifier_loop]
  | cons cid rest ih =>
    intro cs cnt
    simp only [set_qualifier_loop]
    have := ih (cs.set_qualifier cid q).2
      (if (cs.set_qualifier cid q).1 then cnt + 1 else cnt)
    by_cases hb : (cs.set_qualifier cid q).1 = true
    · rw [hb] at this ⊢
      simp only [if_true] at this ⊢
      simp only [List.length_cons]
      omega
    · rw [Bool.not_eq_true] at hb
      rw [hb] at this ⊢
      simp only [Bool.false_eq_true, if_false] at this ⊢
      simp only [List.length_cons]
      omega

theorem loop_map_pres (q : Qualifier) :
    ∀ (l : List ClusterId) (cs : Clusters) (cnt : Nat) (k : ClusterId)
      (m' : Members),
      ((set_qualifier_loop cs q cnt l).2).clusters_map k = some m' →
      m'.new_qualifier = q ∨ cs.clusters_map k = some m' := by
  intro l
  induction l with
  | nil =>
    intro cs cnt k m' h
    exact Or.inr h
  | cons cid rest ih =>
    intro cs cnt k m' h
    simp only [set_qualifier_loop] at h
    rcases ih _ _ _ _ h with hq | hmid
    · exact Or.inl hq
    · exact set_qualifier_step_pres cs cid q k m' hmid

theorem loop_post (q : Qualifier) :
    ∀ (l : List ClusterId) (cs : Clusters) (cnt : Nat) (cid : ClusterId),
      cid ∈ l →
      ∀ m, ((set_qualifier_loop cs q cnt l).2).clusters_map cid = some m →
      m.new_qualifier = q := by
  intro l
  induction l with
  | nil =>
    intro cs cnt cid hmem
    cases hmem
  | cons x rest ih =>
    intro cs cnt cid hmem m hm
    rcases List.mem_cons.mp hmem with hx | hr
    · subst hx
      simp only [set_qualifier_loop] at hm
      rcases loop_map_pres q rest _ _ _ _ hm with hq | hmid
      · exact hq
      · exact set_qualifier_step_at cs cid q m hmid
    · simp only [set_qualifier_loop] at hm
      exact ih _ _ cid hr m hm

theorem loop_noop (q : Qualifier) :
    ∀ (l : List ClusterId) (cs : Clusters) (cnt : Nat),
      (∀ cid ∈ l, ∀ m, cs.clusters_map cid = some m → m.new_qualifier = q) →
      set_qualifier_loop cs q cnt l = (cnt, cs) := by
  intro l
  induction l with
  | nil => intro cs cnt _; rfl
  | cons cid rest ih =>
    intro cs cnt h
    have hstep : cs.set_qualifier cid q = (false, cs) :=
      set_qualifier_noop cs cid q (h cid (List.mem_cons_self cid rest))
    simp only [set_qualifier_loop, hstep]
    exact ih cs cnt fun c hc => h c (List.mem_cons_of_mem cid hc)

/-- C7: with a valid qualifier `Q` and a current round, `set_qualifier` with
`all = true` succeeds with a count at most the round size, afterwards every
cluster of the round known to the store has `new_qualifier = Q`, and an
immediately repeated identical call returns 0 and changes nothing. -/
theorem set_qualifier_all_spec (tm : TitleMatch) (idx : Nat) (q : RStr)
    (Q : Qualifier) (last : FilteredClusters)
    (hq : Qualifier.from_str q = some Q)
    (hl : tm.rounds.getLast? = some last) :
    ∃ cnt tm1,
      tm.set_qualifier idx q true = (some cnt, tm1) ∧
      cnt ≤ last.clusters.length ∧
      (∀ cid ∈ last.clusters, ∀ m, tm1.clusters.clusters_map cid = some m →
        m.new_qualifier = Q) ∧
      tm1.set_qualifier idx q true = (some 0, tm1) := by
  have key : tm.set_qualifier idx q true =
      (some (set_qualifier_loop tm.clusters Q 0 last.clusters).1,
       { tm with
          clusters := (set_qualifier_loop tm.clusters Q 0 last.clusters).2 }) := by
    unfold TitleMatch.set_qualifier
    rw [hl]
    simp only [hq]
    rw [if_pos trivial]
  set tm1 : TitleMatch :=
    { tm with
        clusters := (set_qualifier_loop tm.clusters Q 0 last.clusters).2 }
  have hpost : ∀ cid ∈ last.clusters, ∀ m,
      tm1.clusters.clusters_map cid = some m → m.new_qualifier = Q := by
    intro cid hcid m hm
    exact loop_post Q last.clusters tm.clusters 0 cid hcid m hm
  have key2 : tm1.set_qualifier idx q true = (some 0, tm1) := by
    have hl1 : tm1.rounds.getLast? = some last := hl
    unfold TitleMatch.set_qualifier
    rw [hl1]
    simp only [hq]
    have hno : set_qualifier_loop tm1.clusters Q 0 last.clusters
        = (0, tm1.clusters) :=
      loop_noop Q last.clusters tm1.clusters 0 hpost
    rw [hno, if_pos trivial]
  refine ⟨(set_qualifier_loop tm.clusters Q 0 last.clusters).1, tm1, key, ?_,
    hpost, key2⟩
  have := loop_count_le Q last.clusters tm.clusters 0
  omega

/-- Witness for C7 at a concrete engine: setting every cluster of the base
round to `benign`. -/
theorem set_qualifier_all_spec_witness :
    Qualifier.from_str "benign".data = some Qualifier.Benign ∧
    sample_tm.rounds.getLast? = some base_round ∧
    (∃ cnt tm1,
      sample_tm.set_qualifier 0 "benign".data true = (some cnt, tm1) ∧
      cnt ≤ base_round.clusters.length ∧
      (∀ cid ∈ base_round.clusters, ∀ m,
        tm1.clusters.clusters_map cid = some m →
        m.new_qualifier = Qualifier.Benign) ∧
      tm1.set_qualifier 0 "benign".data true = (some 0, tm1)) :=
  ⟨by decide, rfl,
   set_qualifier_all_spec sample_tm 0 "benign".data Qualifier.Benign base_round
     (by decide) rfl⟩

/-! ## C8: outlier cluster synthesis -/

theorem foldl_insert_not_mem (labels : Labels) (k : ClusterId) :
    ∀ (ms : List ClusterMember) (acc : ClusterId → Option Members),
      (∀ m ∈ ms, m.cluster_id ≠ k) → acc k = none →
      (ms.foldl
        (fun acc m => map_insert acc m.cluster_id (member_of_record labels m))
        acc) k = none := by
  intro ms
  induction ms with
  | nil => intro acc _ hacc; exact hacc
  | cons m ms ih =>
    intro acc hne hacc
    simp only [List.foldl_cons]
    apply ih
    · exact fun m' hm' => hne m' (List.mem_cons_of_mem m hm')
    · unfold map_insert
      rw [if_neg]
      · exact hacc
      · exact fun hk => hne m (List.mem_cons_self m ms) hk.symm

/-- C8: when the outlier list is non-empty with K entries, cluster loading
installs exactly one synthetic cluster under the reserved sentinel id
1,000,000 with size K, default (Unknown) qualifier on both fields — with no
label-based Suspicious seeding — no signature, and event ids obtained by
splitting each outlier entry on the delimiter and taking field index 1
(entries without such a field are skipped), and appends the sentinel to the
id list; when the outlier list is empty, no such cluster exists. -/
theorem clusters_new_outlier_synthesis :
    (∀ (sc : SavedClusters) (labels : Labels) (delimiter : Char),
      sc.outliers ≠ [] →
      (Clusters.new sc labels delimiter).clusters_map CLUSTER_ID_FOR_OUTLIERS =
        some { id := CLUSTER_ID_FOR_OUTLIERS,
               size := sc.outliers.length,
               score := 0,
               qualifier := Qualifier.Unknown,
               new_qualifier := Qualifier.Unknown,
               signature := none,
               event_ids := sc.outliers.filterMap
                 (fun raw => (split_on delimiter raw).get? 1),
               filtered_events := [], filter := [] } ∧
      (Clusters.new sc labels delimiter).clusters =
        sc.cluster_ids ++ [CLUSTER_ID_FOR_OUTLIERS]) ∧
    (∀ (sc : SavedClusters) (labels : Labels) (delimiter : Char),
      sc.outliers = [] →
      (∀ m ∈ sc.clusters, m.cluster_id ≠ CLUSTER_ID_FOR_OUTLIERS) →
      (Clusters.new sc labels delimiter).clusters_map CLUSTER_ID_FOR_OUTLIERS
          = none ∧
      CLUSTER_ID_FOR_OUTLIERS ∉ (Clusters.new sc labels delimiter).clusters) := by
  constructor
  · intro sc labels delimiter h
    unfold Clusters.new
    rw [if_pos h]
    constructor
    · simp [map_insert, Qualifier.default]
    · rfl
  · intro sc labels delimiter h hne
    unfold Clusters.new
    rw [if_neg (fun hc => hc h)]
    constructor
    · exact foldl_insert_not_mem labels CLUSTER_ID_FOR_OUTLIERS sc.clusters
        (fun _ => none) hne rfl
    · intro hmem
      unfold SavedClusters.cluster_ids sort_ids at hmem
      rw [List.mem_insertionSort] at hmem
      obtain ⟨m, hm, hid⟩ := List.mem_map.mp hmem
      exact hne m hm hid

/-- Witness for C8 at concrete inputs: one outlier entry with a second
field, and an empty outlier list. -/
def sc_with_outliers : SavedClusters :=
  { clusters := [{ cluster_id := 3, cluster_size := 4, signature := none,
                   score := none, events := ["m1".data] }]
    outliers := ["x|evt9|z".data, "short".data] }

def sc_no_outliers : SavedClusters :=
  { clusters := [{ cluster_id := 3, cluster_size := 4, signature := none,
                   score := none, events := ["m1".data] }]
    outliers := [] }

theorem clusters_new_outlier_synthesis_witness :
    (sc_with_outliers.outliers ≠ [] ∧
      (Clusters.new sc_with_outliers no_labels '|').clusters_map
          CLUSTER_ID_FOR_OUTLIERS =
        some { id := CLUSTER_ID_FOR_OUTLIERS,
               size := sc_with_outliers.outliers.length,
               score := 0,
               qualifier := Qualifier.Unknown,
               new_qualifier := Qualifier.Unknown,
               signature := none,
               event_ids := sc_with_outliers.outliers.filterMap
                 (fun raw => (split_on '|' raw).get? 1),
               filtered_events := [], filter := [] } ∧
      (Clusters.new sc_with_outliers no_labels '|').clusters =
        sc_with_outliers.cluster_ids ++ [CLUSTER_ID_FOR_OUTLIERS]) ∧
    (sc_no_outliers.outliers = [] ∧
      (∀ m ∈ sc_no_outliers.clusters,
        m.cluster_id ≠ CLUSTER_ID_FOR_OUTLIERS) ∧
      (Clusters.new sc_no_outliers no_labels '|').clusters_map
          CLUSTER_ID_FOR_OUTLIERS = none ∧
      CLUSTER_ID_FOR_OUTLIERS ∉ (Clusters.new sc_no_outliers no_labels '|').clusters) :=
  ⟨⟨fun h => List.cons_ne_nil _ _ h,
    clusters_new_outlier_synthesis.1 sc_with_outliers no_labels '|'
      (fun h => List.cons_ne_nil _ _ h)⟩,
   ⟨rfl, by decide,
    clusters_new_outlier_synthesis.2 sc_no_outliers no_labels '|' rfl
      (by decide)⟩⟩

/-! ## C9: label filtering -/

theorem find_clusters_pairwise (ls : Labels) (t : TidbId) (r : RuleId) :
    List.Pairwise (· < ·) (ls.find_clusters t r) := by
  unfold Labels.find_clusters
  exact vec_dedup_pairwise _ (sort_ids_pairwise _)

/-- C9 counterexample: with the current round holding ids in order `[2, 1]`
and both clusters labeled, `filter_by_label` pushes `[1, 2]` — the sorted
order of the Label Store query — whereas the current round's relative order
of those ids is `[2, 1]`. -/
def round_rev : FilteredClusters :=
  { filtertype := FilterType.NoFilter, op := FilterOp.EQ,
    pattern := "Clusters".data, clusters := [2, 1] }

def labels_ce : Labels :=
  { clusters_labels_map := [(1, [(5, 7)]), (2, [(5, 7)])]
    labels_clusters_map := [((5, 7), [1, 2])] }

def sample_tm_rev : TitleMatch :=
  { clusters := sample_clusters, events := no_events, labels := labels_ce,
    rounds := [round_rev] }

theorem filter_by_label_order_counterexample :
    ((sample_tm_rev.filter_by_label FilterType.Label FilterOp.EQ
        none).2.rounds.getLast?.map (fun r => r.clusters)) = some [1, 2] ∧
    round_rev.clusters.filter
      (fun cid => (sample_tm_rev.labels.find_clusters 0 0).contains cid)
        = [2, 1] ∧
    ([1, 2] : List ClusterId) ≠ [2, 1] :=
  ⟨rfl, rfl, by decide⟩

/-- The display pattern of a label round (matcher.rs:235-239). -/
def label_pattern_display (pattern_id : Option RStr) : RStr :=
  match pattern_id with
  | some v => v
  | none => "All".data

/-- C9 (amended): a successful `filter_by_label` queries the Label Store
across the entire label index, intersects the result with the current
round's id list, and pushes exactly that intersection — but in the Label
Store query's sorted, strictly ascending id order, not in the current
round's relative order. -/
theorem filter_by_label_sorted_intersection (tm : TitleMatch)
    (ft : FilterType) (op : FilterOp) (pattern_id : Option RStr) (n : Nat)
    (tm' : TitleMatch)
    (h : tm.filter_by_label ft op pattern_id = (some n, tm')) :
    ∃ last, tm.rounds.getLast? = some last ∧
      tm'.rounds = tm.rounds ++
        [{ filtertype := ft, op := op,
           pattern := label_pattern_display pattern_id,
           clusters := (tm.labels.find_clusters (parse_pattern_id pattern_id).1
             (parse_pattern_id pattern_id).2).filter
             (fun cid => last.clusters.contains cid) }] ∧
      List.Pairwise (· < ·)
        ((tm.labels.find_clusters (parse_pattern_id pattern_id).1
          (parse_pattern_id pattern_id).2).filter
          (fun cid => last.clusters.contains cid)) := by
  unfold TitleMatch.filter_by_label at h
  cases hl : tm.rounds.getLast? with
  | none =>
    rw [hl] at h
    simp at h
  | some last =>
    rw [hl] at h
    simp only at h
    refine ⟨last, rfl, ?_, ?_⟩
    · by_cases he : ((tm.labels.find_clusters (parse_pattern_id pattern_id).1
          (parse_pattern_id pattern_id).2).filter
          (fun cid => last.clusters.contains cid)).isEmpty
      · rw [if_pos he] at h
        simp at h
      · rw [if_neg he] at h
        rw [Prod.mk.injEq] at h
        obtain ⟨-, h2⟩ := h
        subst h2
        rfl
    · exact (find_clusters_pairwise tm.labels _ _).filter _

/-- Witness for C9's amended statement at a concrete engine. -/
def sample_tm_rev_pushed : TitleMatch :=
  (sample_tm_rev.filter_by_label FilterType.Label FilterOp.EQ none).2

theorem filter_by_label_sorted_intersection_witness :
    sample_tm_rev.filter_by_label FilterType.Label FilterOp.EQ none
      = (some 2, sample_tm_rev_pushed) ∧
    (∃ last, sample_tm_rev.rounds.getLast? = some last ∧
      sample_tm_rev_pushed.rounds = sample_tm_rev.rounds ++
        [{ filtertype := FilterType.Label, op := FilterOp.EQ,
           pattern := "All".data,
           clusters := (sample_tm_rev.labels.find_clusters
             (parse_pattern_id none).1 (parse_pattern_id none).2).filter
             (fun cid => last.clusters.contains cid) }] ∧
      List.Pairwise (· < ·)
        ((sample_tm_rev.labels.find_clusters (parse_pattern_id none).1
          (parse_pattern_id none).2).filter
          (fun cid => last.clusters.contains cid))) :=
  ⟨rfl,
   filter_by_label_sorted_intersection sample_tm_rev FilterType.Label
     FilterOp.EQ none 2 sample_tm_rev_pushed rfl⟩

end Labeler
